import Mathlib

/-!
Verification of the sr-notes review-session engine (`src/srn/note_reviewer.py`)
against its specification.

The embedding follows the source file closely:
  * the persisted JSON document is modelled by a `Json` AST (the text layer
    `json.dump`/`json.load` of the Python standard library is the external
    serializer; parse failure of that layer is modelled by `FileState.corrupt`);
  * `Card` and `ReviewLog` payloads are owned by the external FSRS scheduling
    engine; the engine is a parameter (`Engine`) supplying `newCard` and
    `review`, and its serialization of a card keeps the one field the core
    inspects, `due`, next to an opaque payload;
  * the in-memory `review_log` dict is an insertion-ordered association list
    with Python-dict assignment semantics (`dictSet`);
  * the interactive loop of `review_notes` is a function from the list of
    difficulty-prompt answers to the final store, the list of full-store
    snapshots written to disk (one per `save_review_log` call), and an outcome.
-/

namespace SRN

/-- JSON values, as produced by `json.load` / consumed by `json.dump`. -/
inductive Json where
  | null : Json
  | bool : Bool → Json
  | num : Int → Json
  | str : String → Json
  | arr : List Json → Json
  | obj : List (String × Json) → Json

/-- Scheduling state of one note, owned by the FSRS engine
(`fsrs.Card` in the source). The core inspects exactly one field, `due`
(`card.due.timestamp()`, modelled as an integer timestamp in seconds);
the rest of the engine state is an opaque payload. -/
structure Card where
  due : Int
  payload : Json

/-- Engine-owned serialization `Card.to_dict` (the `due` field next to the
opaque remainder). -/
def Card.to_dict (c : Card) : Json :=
  Json.obj [("due", Json.num c.due), ("rest", c.payload)]

/-- Engine-owned deserialization `Card.from_dict`, inverse of `Card.to_dict`. -/
def Card.from_dict : Json → Option Card
  | Json.obj [("due", Json.num d), ("rest", r)] => some ⟨d, r⟩
  | _ => none

/-- One value of the `review_log` mapping
(`{"last_reviewed": ..., "card": ..., "review_log": ...}`, lines 65-69
of `note_reviewer.py`). The stored `review_log` entry is an opaque
engine-owned payload, kept verbatim. -/
structure NoteReviewRecord where
  last_reviewed : String
  card : Card
  review_log : Json

/-- The in-memory `self.review_log` dict: note identity (file path) to its
record, in insertion order. -/
def Store : Type := List (String × NoteReviewRecord)

/-- Python dict read `self.review_log[note]` / membership `note in self.review_log`. -/
def Store.get : Store → String → Option NoteReviewRecord
  | [], _ => none
  | (k, v) :: rest, n => if k = n then some v else Store.get rest n

/-- Python dict assignment `self.review_log[note] = record`: replaces the
record in place when the key is present, appends otherwise. -/
def dictSet : Store → String → NoteReviewRecord → Store
  | [], n, r => [(n, r)]
  | (k, v) :: rest, n, r =>
      if k = n then (n, r) :: rest else (k, v) :: dictSet rest n r

/-- The external FSRS scheduling engine (`self.fsrs`), an opaque collaborator:
a default new card (`Card()`) and `review_card(card, rating)` returning the
updated card and a review-log entry (serialized payload). -/
structure Engine where
  newCard : Card
  review : Card → Int → Card × Json

/-- Lines 55-60 of `update_review_log`: the stored card for `note` when a
record exists (`Card.from_dict(card_data["card"])`), otherwise a fresh
default card from the engine (`Card()`). -/
def fetchCard (eng : Engine) (store : Store) (note : String) : Card :=
  match store.get note with
  | some rec => rec.card
  | none => eng.newCard

/-- Lines 53-69, `NoteReviewer.update_review_log`: fetch the stored card for
`note` (or a fresh default card), call `fsrs.review_card(card, rating)`, and
store `{"last_reviewed": today, "card": ..., "review_log": ...}` under `note`. -/
def update_review_log (eng : Engine) (today : String) (store : Store)
    (note : String) (rating : Int) : Store :=
  let result := eng.review (fetchCard eng store note) rating
  dictSet store note ⟨today, result.1, result.2⟩

/-- Lines 43-49, the due test inside `select_notes_for_review`: a note with a
stored record is due when `card.due.timestamp() <= datetime.now().timestamp()`;
a note with no record is always due. -/
def isDue (store : Store) (now : Int) (note : String) : Bool :=
  match store.get note with
  | some rec => rec.card.due ≤ now
  | none => true

/-- Lines 41-49, the `notes_due` accumulation loop: due notes collected in
catalog-traversal order. -/
def collectDue (store : Store) (now : Int) : List String → List String
  | [] => []
  | note :: rest =>
      if isDue store now note then note :: collectDue store now rest
      else collectDue store now rest

/-- Lines 33-51, `NoteReviewer.select_notes_for_review`: collect the due notes
of the catalog in traversal order and return the first `q` (`notes_due[:q]`,
default `q = 5`). -/
def select_notes_for_review (store : Store) (now : Int)
    (catalog : List String) (q : Nat) : List String :=
  (collectDue store now catalog).take q

/-- Line 103: `rating = 5 - difficulty`. -/
def difficultyToRating (d : Int) : Int := 5 - d

/-- One answer typed at the difficulty prompt: the literal `"q"`, a string
parsing as the integer `n`, or a non-integer non-quit string. -/
inductive Answer where
  | quit : Answer
  | int : Int → Answer
  | nonInt : String → Answer

/-- Result of the inner `while True` prompt loop (lines 79-98). -/
inductive PromptResult where
  | rated : Int → List Answer → PromptResult
  | quitSession : List Answer → PromptResult
  | crashed : PromptResult
  | noInput : PromptResult

/-- Lines 79-98, the validation loop for one note: `"q"` quits; an integer in
`[1,4]` passes `difficulty_schema` and is accepted; an out-of-range integer
raises `SchemaError`, which is caught, an error message printed, and the
prompt repeated; a non-integer answer makes `int(answer)` raise `ValueError`,
which the `except SchemaError` clause does not catch, so the exception
propagates and the session crashes. `noInput` is the model artifact for an
exhausted answer script. -/
def promptDifficulty : List Answer → PromptResult
  | [] => PromptResult.noInput
  | Answer.quit :: rest => PromptResult.quitSession rest
  | Answer.int n :: rest =>
      if 1 ≤ n ∧ n ≤ 4 then PromptResult.rated n rest
      else promptDifficulty rest
  | Answer.nonInt _ :: _ => PromptResult.crashed

/-- How the `review_notes` loop ends. -/
inductive Outcome where
  | done : Outcome
  | quitted : Outcome
  | crash : Outcome
  | blocked : Outcome

/-- Observable result of the `review_notes` loop: the final in-memory store,
every full-store snapshot passed to `save_review_log` in order, and the
outcome. -/
structure SessionResult where
  store : Store
  saves : List Store
  outcome : Outcome

/-- Lines 75-105, the `for note in notes_for_review` loop of
`NoteReviewer.review_notes`: for each note, run the prompt loop; on `"q"` set
`finish_review` and return before any update; on an accepted difficulty `d`,
compute `rating = 5 - d` (`difficultyToRating`), call `update_review_log`,
then `save_review_log` (recorded as a snapshot), and move to the next note. -/
def runQueue (eng : Engine) (today : String) :
    List String → List Answer → Store → List Store → SessionResult
  | [], _, store, saves => ⟨store, saves, Outcome.done⟩
  | note :: rest, answers, store, saves =>
      match promptDifficulty answers with
      | PromptResult.rated d answers₂ =>
          let store₂ := update_review_log eng today store note (difficultyToRating d)
          runQueue eng today rest answers₂ store₂ (saves ++ [store₂])
      | PromptResult.quitSession _ => ⟨store, saves, Outcome.quitted⟩
      | PromptResult.crashed => ⟨store, saves, Outcome.crash⟩
      | PromptResult.noInput => ⟨store, saves, Outcome.blocked⟩

/-- Net effect of rating, in order, each `(note, difficulty)` pair:
the iterated `update_review_log` with rating `5 - d`. -/
def applyRatings (eng : Engine) (today : String) :
    Store → List (String × Int) → Store
  | store, [] => store
  | store, (note, d) :: rest =>
      applyRatings eng today
        (update_review_log eng today store note (difficultyToRating d)) rest

/-- The sequence of full-store snapshots written to disk while rating, in
order, each `(note, difficulty)` pair: one snapshot per rating, taken right
after that rating's `update_review_log`. -/
def saveSnapshots (eng : Engine) (today : String) :
    Store → List (String × Int) → List Store
  | _, [] => []
  | store, (note, d) :: rest =>
      let store₂ := update_review_log eng today store note (difficultyToRating d)
      store₂ :: saveSnapshots eng today store₂ rest

/-- Serialization of one `NoteReviewRecord` into the persisted JSON shape
(lines 65-69: the dict stored under a note key). -/
def recordToJson (r : NoteReviewRecord) : Json :=
  Json.obj
    [("last_reviewed", Json.str r.last_reviewed),
     ("card", r.card.to_dict),
     ("review_log", r.review_log)]

/-- Deserialization of one persisted record, inverse of `recordToJson`
(lines 56-58: `card_data["card"]` through `Card.from_dict`, the stored
`review_log` payload kept verbatim). -/
def recordFromJson : Json → Option NoteReviewRecord
  | Json.obj
      [("last_reviewed", Json.str d), ("card", c), ("review_log", rl)] =>
      match Card.from_dict c with
      | some card => some ⟨d, card, rl⟩
      | none => none
  | _ => none

/-- Deserialization of the entries of the persisted top-level object. -/
def entriesFromJson : List (String × Json) → Option Store
  | [] => some []
  | (k, v) :: rest =>
      match recordFromJson v, entriesFromJson rest with
      | some r, some s => some ((k, r) :: s)
      | _, _ => none

/-- The whole persisted document: a JSON object keyed by note identities
(the shape `json.dump(self.review_log, ...)` writes on line 73). -/
def storeToJson (s : Store) : Json :=
  Json.obj (s.map (fun e => (e.1, recordToJson e.2)))

/-- Parsing the whole persisted document back into a store. -/
def storeFromJson : Json → Option Store
  | Json.obj fields => entriesFromJson fields
  | _ => none

/-- Contents of the review-log file: missing (first run), present but not
parseable as a persisted store document (for example a file truncated
mid-write, on which `json.load` raises `JSONDecodeError`), or a parsed
document. -/
inductive FileState where
  | absent : FileState
  | corrupt : FileState
  | doc : Json → FileState

/-- Failure of loading the review-log file: the parse error `json.load`
raises when the file exists but does not parse (the spec's
StoreCorruptError). -/
inductive LoadError where
  | storeCorrupt : LoadError

/-- Lines 26-31 of `NoteReviewer.__init__`: if the review-log file exists it
is parsed (`json.load`), a parse failure propagating as an error that aborts
construction; if it does not exist, the store starts empty. The read performs
no write, so the file state is untouched. -/
def load_review_log : FileState → Except LoadError Store
  | FileState.absent => Except.ok []
  | FileState.corrupt => Except.error LoadError.storeCorrupt
  | FileState.doc j =>
      match storeFromJson j with
      | some s => Except.ok s
      | none => Except.error LoadError.storeCorrupt

/-- Lines 71-73, `NoteReviewer.save_review_log`: the file state once
`json.dump` has completed — the serialized full mapping. -/
def save_review_log (store : Store) : FileState :=
  FileState.doc (storeToJson store)

/-- Lines 71-73 again, now exposing every on-disk state the direct-overwrite
save passes through: `open(self.review_log_file, "w")` first truncates the
file in place, so until `json.dump` finishes the file holds an empty or
partial text that does not parse (`FileState.corrupt`); only then does it
hold the new document. There is no temporary file and no rename. -/
def save_review_log_states (store : Store) : List FileState :=
  [FileState.corrupt, save_review_log store]

/-- Does this file state parse as a JSON document? -/
def parsesOK : FileState → Bool
  | FileState.doc _ => true
  | _ => false

/-- A save procedure is crash-safe when every on-disk state it passes through
parses — an interruption at any point leaves a valid file. -/
def crashSafeTrace (trace : List FileState) : Bool :=
  trace.all parsesOK

/-- Modelled from the spec: the required write-to-temp-then-atomic-rename
save. The target file never holds anything but a complete document (the old
one until the rename, the new one after), so its only observable state
sequence is the completed new document. -/
def atomicSaveStates (store : Store) : List FileState :=
  [FileState.doc (storeToJson store)]

/-- How a whole session invocation ends: construction of the reviewer failed
while loading the store, or the review loop ran and ended with an `Outcome`. -/
inductive SessionOutcome where
  | loadFailed : LoadError → SessionOutcome
  | finished : Outcome → SessionOutcome

/-- A whole invocation (`ReviewCLI.run` constructing `NoteReviewer` and then
`review_notes`): load the store from the file (on failure the exception
propagates, nothing is reviewed and nothing is written); select the due queue
with the default limit 5; run the loop; the file ends at the last snapshot
written by `save_review_log`, or untouched when no save happened. -/
def review_session (eng : Engine) (today : String) (now : Int)
    (catalog : List String) (fs : FileState) (answers : List Answer) :
    SessionOutcome × FileState :=
  match load_review_log fs with
  | Except.error e => (SessionOutcome.loadFailed e, fs)
  | Except.ok store =>
      let queue := select_notes_for_review store now catalog 5
      let r := runQueue eng today queue answers store []
      match r.saves.getLast? with
      | some s => (SessionOutcome.finished r.outcome, save_review_log s)
      | none => (SessionOutcome.finished r.outcome, fs)

/-- Concrete engine instance used to evaluate the model on closed inputs: the
new card is due at time 0 with a null payload; a review pushes `due` forward
by the rating and records the rating it was given as the review-log payload. -/
def testEngine : Engine where
  newCard := ⟨0, Json.null⟩
  review := fun c r => (⟨c.due + r, c.payload⟩, Json.num r)

/-- Sample one-entry store used to evaluate the save trace. -/
def sampleStore : Store :=
  [("a.md", ⟨"2026-10-12", ⟨0, Json.null⟩, Json.null⟩)]

/-! ### Helper lemmas -/

theorem get_dictSet_self (s : Store) (n : String) (r : NoteReviewRecord) :
    Store.get (dictSet s n r) n = some r := by
  induction s with
  | nil => simp [dictSet, Store.get]
  | cons e rest ih =>
    by_cases h : e.1 = n
    · simp [dictSet, h, Store.get]
    · simp [dictSet, h, Store.get, ih]

theorem get_dictSet_ne (s : Store) (n m : String) (r : NoteReviewRecord)
    (h : m ≠ n) : Store.get (dictSet s n r) m = Store.get s m := by
  induction s with
  | nil => simp [dictSet, Store.get, Ne.symm h]
  | cons e rest ih =>
    by_cases he : e.1 = n
    · simp [dictSet, he, Store.get, Ne.symm h]
    · simp [dictSet, he, Store.get, ih]

theorem get_update_ne (eng : Engine) (today : String) (store : Store)
    (note : String) (rating : Int) (m : String) (h : m ≠ note) :
    Store.get (update_review_log eng today store note rating) m =
      Store.get store m := by
  unfold update_review_log
  exact get_dictSet_ne _ _ _ _ h

theorem collectDue_eq_filter (store : Store) (now : Int)
    (catalog : List String) :
    collectDue store now catalog =
      catalog.filter (fun note => isDue store now note) := by
  induction catalog with
  | nil => rfl
  | cons n rest ih =>
    by_cases h : isDue store now n
    · simp [collectDue, h, List.filter, ih]
    · simp [collectDue, h, List.filter, ih]

theorem applyRatings_get_notMem (eng : Engine) (today : String) :
    ∀ (pairs : List (String × Int)) (store : Store) (m : String),
      m ∉ pairs.map Prod.fst →
      Store.get (applyRatings eng today store pairs) m = Store.get store m := by
  intro pairs
  induction pairs with
  | nil => intro store m _; rfl
  | cons p rest ih =>
    intro store m hm
    simp only [List.map_cons, List.mem_cons, not_or] at hm
    rw [applyRatings, ih _ _ hm.2, get_update_ne _ _ _ _ _ _ hm.1]

theorem saveSnapshots_length (eng : Engine) (today : String) :
    ∀ (pairs : List (String × Int)) (store : Store),
      (saveSnapshots eng today store pairs).length = pairs.length := by
  intro pairs
  induction pairs with
  | nil => intro store; rfl
  | cons p rest ih => intro store; simp [saveSnapshots, ih]

theorem runQueue_cons_valid (eng : Engine) (today : String) (n : String)
    (rest : List String) (d : Int) (ans : List Answer) (store : Store)
    (acc : List Store) (h : 1 ≤ d ∧ d ≤ 4) :
    runQueue eng today (n :: rest) (Answer.int d :: ans) store acc =
      runQueue eng today rest ans
        (update_review_log eng today store n (difficultyToRating d))
        (acc ++ [update_review_log eng today store n (difficultyToRating d)]) := by
  rw [runQueue]
  simp [promptDifficulty, h]

theorem runQueue_script (eng : Engine) (today : String) (ds : List Int) :
    ∀ (queue : List String) (store : Store) (acc : List Store),
      (∀ d ∈ ds, 1 ≤ d ∧ d ≤ 4) → ds.length ≤ queue.length →
      runQueue eng today queue (ds.map Answer.int ++ [Answer.quit]) store acc =
        ⟨applyRatings eng today store (queue.zip ds),
         acc ++ saveSnapshots eng today store (queue.zip ds),
         if ds.length < queue.length then Outcome.quitted else Outcome.done⟩ := by
  induction ds with
  | nil =>
    intro queue store acc _ _
    cases queue with
    | nil => simp [runQueue, applyRatings, saveSnapshots]
    | cons n rest =>
      simp [runQueue, promptDifficulty, applyRatings, saveSnapshots]
  | cons d ds ih =>
    intro queue store acc hval hlen
    cases queue with
    | nil => simp at hlen
    | cons n rest =>
      have hd : 1 ≤ d ∧ d ≤ 4 := hval d (List.mem_cons_self d ds)
      have hrec := ih rest
        (update_review_log eng today store n (difficultyToRating d))
        (acc ++ [update_review_log eng today store n (difficultyToRating d)])
        (fun x hx => hval x (List.mem_cons_of_mem d hx))
        (Nat.le_of_succ_le_succ hlen)
      simp only [List.map_cons, List.cons_append]
      rw [runQueue_cons_valid eng today n rest d _ store acc hd, hrec]
      simp [List.zip, List.zip_cons_cons, applyRatings, saveSnapshots,
        Nat.succ_lt_succ_iff]

theorem recordFromJson_recordToJson (r : NoteReviewRecord) :
    recordFromJson (recordToJson r) = some r := rfl

theorem entriesFromJson_roundtrip (s : Store) :
    entriesFromJson (s.map (fun e => (e.1, recordToJson e.2))) = some s := by
  induction s with
  | nil => rfl
  | cons e rest ih =>
    simp only [List.map_cons, entriesFromJson, recordFromJson_recordToJson, ih]

/-! ### Claim theorems -/

/-- C1: evaluation of the validation loop on the claim's inputs. The
out-of-range integers 0 and 5 do re-prompt and a subsequent 2 is accepted;
but the non-integer answer "abc" does not re-prompt: on line 89,
`int(answer)` raises `ValueError` before `difficulty_schema` runs, the
`except SchemaError` clause on line 90 does not catch it, and the session
crashes with no update and no save — contradicting the claim that the
session never fails on malformed rating input. -/
theorem validation_loop_crash_on_non_integer :
    promptDifficulty [Answer.int 0, Answer.int 5, Answer.int 2] =
      PromptResult.rated 2 [] ∧
    runQueue testEngine "2026-10-12" ["a.md"]
        [Answer.int 0, Answer.int 5, Answer.nonInt "abc", Answer.int 2]
        [] [] =
      ⟨[], [], Outcome.crash⟩ :=
  ⟨rfl, rfl⟩

/-- C2: running the review loop on a script that validly rates the first
`ds.length` notes and then sends the quit sentinel: the final store is
exactly the iterated updates, the disk snapshots are exactly one full-store
save per rating (each taken right after its rating, before the next note, so
never batched and never skipped), the outcome is `quitted` when a note was
still pending (and `done` when the queue was already exhausted), the
snapshot count equals the rating count, and every note outside the rated
prefix — in particular the note being quit on — keeps its original record. -/
theorem rating_persists_and_quit_safe (eng : Engine) (today : String)
    (ds : List Int) (queue : List String) (store : Store) (m : String)
    (hval : ∀ d ∈ ds, 1 ≤ d ∧ d ≤ 4) (hlen : ds.length ≤ queue.length)
    (hm : m ∉ (queue.zip ds).map Prod.fst) :
    runQueue eng today queue (ds.map Answer.int ++ [Answer.quit]) store [] =
      ⟨applyRatings eng today store (queue.zip ds),
       saveSnapshots eng today store (queue.zip ds),
       if ds.length < queue.length then Outcome.quitted else Outcome.done⟩ ∧
    (saveSnapshots eng today store (queue.zip ds)).length =
      (queue.zip ds).length ∧
    Store.get (applyRatings eng today store (queue.zip ds)) m =
      Store.get store m := by
  refine ⟨?_, saveSnapshots_length eng today _ _,
    applyRatings_get_notMem eng today _ _ _ hm⟩
  simpa using runQueue_script eng today ds queue store [] hval hlen

/-- C2 witness: two due notes, the first rated 2, then quit on the second. -/
theorem rating_persists_and_quit_safe_witness :
    (∀ d ∈ ([2] : List Int), 1 ≤ d ∧ d ≤ 4) ∧
    ([2] : List Int).length ≤ (["a.md", "b.md"] : List String).length ∧
    "b.md" ∉ ((["a.md", "b.md"] : List String).zip ([2] : List Int)).map
      Prod.fst ∧
    (runQueue testEngine "2026-10-12" ["a.md", "b.md"]
        (([2] : List Int).map Answer.int ++ [Answer.quit]) [] [] =
      ⟨applyRatings testEngine "2026-10-12" []
         ((["a.md", "b.md"] : List String).zip ([2] : List Int)),
       saveSnapshots testEngine "2026-10-12" []
         ((["a.md", "b.md"] : List String).zip ([2] : List Int)),
       if ([2] : List Int).length < (["a.md", "b.md"] : List String).length
         then Outcome.quitted else Outcome.done⟩ ∧
     (saveSnapshots testEngine "2026-10-12" []
        ((["a.md", "b.md"] : List String).zip ([2] : List Int))).length =
       ((["a.md", "b.md"] : List String).zip ([2] : List Int)).length ∧
     Store.get (applyRatings testEngine "2026-10-12" []
        ((["a.md", "b.md"] : List String).zip ([2] : List Int))) "b.md" =
       Store.get [] "b.md") :=
  ⟨by decide, by decide, by decide,
   rating_persists_and_quit_safe testEngine "2026-10-12" [2] ["a.md", "b.md"]
     [] "b.md" (by decide) (by decide) (by decide)⟩

/-- C3: the difficulty-to-rating map is `5 - d`, exhaustively `1 ↦ 4`,
`2 ↦ 3`, `3 ↦ 2`, `4 ↦ 1`; and in the session itself, rating a note with
difficulty `d` invokes the engine's review with rating `5 - d`, observed
here through `testEngine`, which records the rating it was given both in the
stored review-log payload and in the card's new due date. -/
theorem rating_inversion :
    (difficultyToRating 1 = 4 ∧ difficultyToRating 2 = 3 ∧
     difficultyToRating 3 = 2 ∧ difficultyToRating 4 = 1) ∧
    Store.get (runQueue testEngine "t" ["n.md"] [Answer.int 1] [] []).store
        "n.md" = some ⟨"t", ⟨4, Json.null⟩, Json.num 4⟩ ∧
    Store.get (runQueue testEngine "t" ["n.md"] [Answer.int 2] [] []).store
        "n.md" = some ⟨"t", ⟨3, Json.null⟩, Json.num 3⟩ ∧
    Store.get (runQueue testEngine "t" ["n.md"] [Answer.int 3] [] []).store
        "n.md" = some ⟨"t", ⟨2, Json.null⟩, Json.num 2⟩ ∧
    Store.get (runQueue testEngine "t" ["n.md"] [Answer.int 4] [] []).store
        "n.md" = some ⟨"t", ⟨1, Json.null⟩, Json.num 1⟩ :=
  ⟨⟨rfl, rfl, rfl, rfl⟩, rfl, rfl, rfl, rfl⟩

/-- C4: the direct-overwrite save of `save_review_log` is not crash-safe:
its state sequence passes through a truncated, unparseable file (the state
right after `open(..., "w")`), so an interruption there leaves an invalid
log file; the spec-mandated write-to-temp-then-atomic-rename save, modelled
by `atomicSaveStates`, is crash-safe on the same store. -/
theorem save_overwrite_not_crash_safe :
    crashSafeTrace (save_review_log_states sampleStore) = false ∧
    crashSafeTrace (atomicSaveStates sampleStore) = true :=
  ⟨rfl, rfl⟩

/-- C5 counterexample: with catalog `["a.md", "b.md"]`, an empty store and
limit 1, the note `"b.md"` has no record and is in the catalog, yet it is
not in the returned list — the returned list is truncated to the first
`limit` due notes, so a new note beyond the limit is excluded. -/
theorem new_note_beyond_limit_excluded :
    Store.get [] "b.md" = none ∧ "b.md" ∈ ["a.md", "b.md"] ∧
    "b.md" ∉ select_notes_for_review [] 0 ["a.md", "b.md"] 1 :=
  ⟨rfl, by decide, by decide⟩

/-- C5 amended: every catalog note with no store record is due and is
collected in the pre-limit due list; it is included in the returned list
whenever the number of due notes does not exceed the limit. -/
theorem new_note_included_within_limit (store : Store) (now : Int)
    (catalog : List String) (q : Nat) (note : String)
    (hmem : note ∈ catalog) (hnew : Store.get store note = none)
    (hq : (collectDue store now catalog).length ≤ q) :
    isDue store now note = true ∧
    note ∈ select_notes_for_review store now catalog q := by
  have hdue : isDue store now note = true := by simp [isDue, hnew]
  refine ⟨hdue, ?_⟩
  unfold select_notes_for_review
  rw [List.take_of_length_le hq, collectDue_eq_filter]
  exact List.mem_filter.2 ⟨hmem, hdue⟩

/-- C5 witness: the counterexample's catalog with the default limit 5. -/
theorem new_note_included_within_limit_witness :
    ("b.md" ∈ ["a.md", "b.md"]) ∧ Store.get [] "b.md" = none ∧
    (collectDue [] 0 ["a.md", "b.md"]).length ≤ 5 ∧
    (isDue [] 0 "b.md" = true ∧
     "b.md" ∈ select_notes_for_review [] 0 ["a.md", "b.md"] 5) :=
  ⟨by decide, rfl, by decide,
   new_note_included_within_limit [] 0 ["a.md", "b.md"] 5 "b.md"
     (by decide) rfl (by decide)⟩

/-- C6: the due comparison is the inclusive `card.due <= now`: a stored note
whose card is due exactly now is due (and selected), while one due one
second later is not due (and not selected). -/
theorem due_boundary_inclusive (now : Int) (note lr : String)
    (payload rl : Json) :
    isDue [(note, ⟨lr, ⟨now, payload⟩, rl⟩)] now note = true ∧
    isDue [(note, ⟨lr, ⟨now + 1, payload⟩, rl⟩)] now note = false ∧
    select_notes_for_review [(note, ⟨lr, ⟨now, payload⟩, rl⟩)] now [note] 5 =
      [note] ∧
    select_notes_for_review [(note, ⟨lr, ⟨now + 1, payload⟩, rl⟩)] now
      [note] 5 = [] := by
  have h1 : isDue [(note, ⟨lr, ⟨now, payload⟩, rl⟩)] now note = true := by
    simp [isDue, Store.get]
  have h2 : isDue [(note, ⟨lr, ⟨now + 1, payload⟩, rl⟩)] now note = false := by
    simp [isDue, Store.get]
  refine ⟨h1, h2, ?_, ?_⟩ <;>
    simp [select_notes_for_review, collectDue, h1, h2]

/-- C7: for every store, instant, catalog and non-negative limit `q`, the
selection returns at most `q` notes, and it returns exactly the first `q`
(or fewer) due notes in catalog-traversal order — the due list filtered in
traversal order, truncated to `q`, with no other prioritization. -/
theorem limit_and_traversal_order (store : Store) (now : Int)
    (catalog : List String) (q : Nat) :
    (select_notes_for_review store now catalog q).length ≤ q ∧
    select_notes_for_review store now catalog q =
      (catalog.filter (fun note => isDue store now note)).take q := by
  constructor
  · unfold select_notes_for_review
    simp [List.length_take]
  · unfold select_notes_for_review
    rw [collectDue_eq_filter]

/-- C8: loading the review log with no file present yields the empty store;
loading a file that exists but does not parse fails with the store-corrupt
error, and the whole session invocation then performs no review and leaves
the corrupt file untouched. -/
theorem load_missing_or_corrupt (eng : Engine) (today : String) (now : Int)
    (catalog : List String) (answers : List Answer) :
    load_review_log FileState.absent = Except.ok [] ∧
    load_review_log FileState.corrupt = Except.error LoadError.storeCorrupt ∧
    review_session eng today now catalog FileState.corrupt answers =
      (SessionOutcome.loadFailed LoadError.storeCorrupt, FileState.corrupt) :=
  ⟨rfl, rfl, rfl⟩

/-- C9: saving any store and loading the resulting file reproduces an equal
store — same keys in the same order, same last-reviewed dates, and the
opaque Card and ReviewLogEntry payloads identical. -/
theorem save_load_roundtrip (store : Store) :
    load_review_log (save_review_log store) = Except.ok store := by
  have h := entriesFromJson_roundtrip store
  simp [save_review_log, load_review_log, storeToJson, storeFromJson, h]

/-- C10: updating the review log for `note` sets exactly the record keyed by
`note` — to today's date, the engine's updated card and its new review-log
entry, inserting when absent and replacing when present — and the record of
every other note identity is unchanged. -/
theorem update_review_log_frame (eng : Engine) (today : String)
    (store : Store) (note : String) (rating : Int) (m : String)
    (hm : m ≠ note) :
    Store.get (update_review_log eng today store note rating) note =
      some ⟨today, (eng.review (fetchCard eng store note) rating).1,
            (eng.review (fetchCard eng store note) rating).2⟩ ∧
    Store.get (update_review_log eng today store note rating) m =
      Store.get store m := by
  refine ⟨?_, get_update_ne eng today store note rating m hm⟩
  unfold update_review_log
  exact get_dictSet_self _ _ _

/-- C10 witness: first review of `"a.md"` with rating 3 in an empty store,
frame checked at `"b.md"`. -/
theorem update_review_log_frame_witness :
    ("b.md" : String) ≠ "a.md" ∧
    (Store.get (update_review_log testEngine "2026-10-12" [] "a.md" 3)
        "a.md" =
      some ⟨"2026-10-12",
            (testEngine.review (fetchCard testEngine [] "a.md") 3).1,
            (testEngine.review (fetchCard testEngine [] "a.md") 3).2⟩ ∧
     Store.get (update_review_log testEngine "2026-10-12" [] "a.md" 3)
        "b.md" = Store.get [] "b.md") :=
  ⟨by decide,
   update_review_log_frame testEngine "2026-10-12" [] "a.md" 3 "b.md"
     (by decide)⟩

end SRN
